import Mathlib

/-!
Verification of the access-code Telegram bot (`bot.py`) against its
natural-language specification.

The development shallowly embeds the pure core of the program:
the identifier-range parser `parse_id_ranges`, the catalog resolution
`fetch_user_objects` (its pure part, operating on already-fetched rows),
the button-layout builder `build_keyboard`, and the per-conversation
disclosure state machine formed by the `refresh`/`show_code` callback
handlers and the `auto_hide_code` background task.

Python values that can be an int, a string or None are modelled by `PyVal`;
Python `int(...)` on strings is modelled by `pyIntChars?` (optional sign and
ASCII digits, surrounding whitespace stripped), and Python `str.split` /
`str.strip` by `pySplit` / `pyStrip` over character lists.
-/

/-- Python's default `str.strip` whitespace test, restricted to ASCII. -/
def pyIsSpace (c : Char) : Bool :=
  c = ' ' || c = '\t' || c = '\n' || c = '\r' || c = '\x0b' || c = '\x0c'

/-- Models Python `str.strip()`: removes leading and trailing whitespace. -/
def pyStrip (s : List Char) : List Char :=
  ((s.dropWhile pyIsSpace).reverse.dropWhile pyIsSpace).reverse

/-- Value of a list of decimal digits, most significant first. -/
def digitsVal (s : List Char) : Nat :=
  s.foldl (fun n c => 10 * n + (c.toNat - 48)) 0

/-- Core of the int parser, applied after whitespace stripping: optional
single sign, then one or more ASCII digits. -/
def pyIntCore? : List Char → Option Int
  | [] => none
  | c :: rest =>
    if c = '-' then
      if rest ≠ [] && rest.all Char.isDigit then some (-(digitsVal rest : Int)) else none
    else if c = '+' then
      if rest ≠ [] && rest.all Char.isDigit then some ((digitsVal rest : Int)) else none
    else if (c :: rest).all Char.isDigit then some ((digitsVal (c :: rest) : Int)) else none

/-- Models Python `int(s)` on a string: optional surrounding whitespace,
optional single sign, then one or more ASCII digits; `none` models
`ValueError`. -/
def pyIntChars? (s : List Char) : Option Int :=
  pyIntCore? (pyStrip s)

/-- Models Python `s.split(sep, 1)` when `sep` occurs in `s`: the pieces
before and after the first occurrence of `sep`.  When `sep` does not occur,
returns `(s, [])` (the program only uses it under a containment guard). -/
def breakAtFirst (sep : Char) : List Char → List Char × List Char
  | [] => ([], [])
  | c :: cs =>
    if c = sep then ([], cs)
    else
      let p := breakAtFirst sep cs
      (c :: p.1, p.2)

def pySplitAux (sep : Char) : List Char → List Char → List (List Char)
  | [], acc => [acc.reverse]
  | c :: cs, acc =>
    if c = sep then acc.reverse :: pySplitAux sep cs [] else pySplitAux sep cs (c :: acc)

/-- Models Python `s.split(sep)` for a one-character separator. -/
def pySplit (sep : Char) (s : List Char) : List (List Char) :=
  pySplitAux sep s []

/-- Models Python `range(a, b + 1)` as a list: the integers from `a` to `b`
inclusive (empty when `b < a`). -/
def intRange (a b : Int) : List Int :=
  (List.range (b + 1 - a).toNat).map (fun k => a + Int.ofNat k)

/-- The identifiers contributed by one comma-separated segment of the range
expression, following the loop body of `parse_id_ranges` in `bot.py`:
the segment is stripped; an empty segment is skipped; a segment containing a
hyphen is split at its first hyphen and contributes the inclusive range when
both halves parse as integers and `start ≤ end`, otherwise nothing; any other
segment contributes its single parsed integer, or nothing if parsing fails. -/
def segIds (rawPart : List Char) : List Int :=
  if pyStrip rawPart = [] then []
  else if '-' ∈ pyStrip rawPart then
    match pyIntChars? (breakAtFirst '-' (pyStrip rawPart)).1,
        pyIntChars? (breakAtFirst '-' (pyStrip rawPart)).2 with
    | some a, some b => if a ≤ b then intRange a b else []
    | _, _ => []
  else
    match pyIntChars? (pyStrip rawPart) with
    | some n => [n]
    | none => []

/-- Insert an integer into a strictly sorted list, keeping it strictly
sorted (no duplicate is created). -/
def insSorted (x : Int) : List Int → List Int
  | [] => [x]
  | y :: ys =>
    if x < y then x :: y :: ys
    else if x = y then y :: ys
    else y :: insSorted x ys

/-- Models Python `sorted(set(l))`: the distinct elements of `l` in
ascending order. -/
def sortedDedup (l : List Int) : List Int :=
  l.foldl (fun acc x => insSorted x acc) []

/-- Embedding of `parse_id_ranges` (bot.py lines 65-82) on string input:
split on commas, collect the identifiers of every segment, return the
deduplicated ascending list (Python builds a `set` and returns `sorted(ids)`).
The empty string is caught by the `if not range_str` guard. -/
def parse_id_ranges (range_str : String) : List Int :=
  if range_str.data = [] then []
  else sortedDedup ((pySplit ',' range_str.data).foldl (fun acc part => acc ++ segIds part) [])

/-- A Python value as it appears in spreadsheet rows and function arguments:
`None`, a string, or an int. -/
inductive PyVal where
  | vnone : PyVal
  | vstr : String → PyVal
  | vint : Int → PyVal
deriving DecidableEq

/-- Models Python `str(v)`. -/
def pyStr : PyVal → String
  | .vnone => "None"
  | .vstr s => s
  | .vint n => toString n

/-- Models Python truthiness of a value. -/
def pyTruthy : PyVal → Bool
  | .vnone => false
  | .vstr s => s ≠ ""
  | .vint n => n ≠ 0

/-- Embedding of `parse_id_ranges` on an arbitrary Python value: the guard
`if not range_str or not isinstance(range_str, str)` returns the empty list
for `None`, non-strings and the empty (falsy) string. -/
def parse_id_ranges_py : PyVal → List Int
  | .vstr s => parse_id_ranges s
  | _ => []

/-! ### Lemmas about the range parser -/

lemma mem_insSorted {x y : Int} {l : List Int} : x ∈ insSorted y l ↔ x = y ∨ x ∈ l := by
  induction l with
  | nil => simp [insSorted]
  | cons z zs ih =>
    simp only [insSorted]
    by_cases h1 : y < z
    · simp [h1, List.mem_cons]
    · by_cases h2 : y = z
      · subst h2
        simp [h1, List.mem_cons]
      · simp [h1, h2, List.mem_cons, ih]
        tauto

lemma mem_foldl_insSorted {x : Int} (l : List Int) :
    ∀ acc : List Int, x ∈ l.foldl (fun a b => insSorted b a) acc ↔ x ∈ acc ∨ x ∈ l := by
  induction l with
  | nil => simp
  | cons z zs ih =>
    intro acc
    simp only [List.foldl_cons, ih, mem_insSorted, List.mem_cons]
    tauto

lemma mem_sortedDedup {x : Int} {l : List Int} : x ∈ sortedDedup l ↔ x ∈ l := by
  simp [sortedDedup, mem_foldl_insSorted]

lemma sorted_insSorted {x : Int} {l : List Int} (h : l.Sorted (· < ·)) :
    (insSorted x l).Sorted (· < ·) := by
  induction l with
  | nil => simp [insSorted]
  | cons z zs ih =>
    rw [List.sorted_cons] at h
    obtain ⟨hz, hzs⟩ := h
    simp only [insSorted]
    by_cases h1 : x < z
    · rw [if_pos h1, List.sorted_cons]
      refine ⟨?_, List.sorted_cons.mpr ⟨hz, hzs⟩⟩
      intro b hb
      rcases List.mem_cons.mp hb with rfl | hb
      · exact h1
      · exact lt_trans h1 (hz b hb)
    · by_cases h2 : x = z
      · rw [if_neg h1, if_pos h2]
        exact List.sorted_cons.mpr ⟨hz, hzs⟩
      · rw [if_neg h1, if_neg h2, List.sorted_cons]
        refine ⟨?_, ih hzs⟩
        intro b hb
        rcases mem_insSorted.mp hb with rfl | hb
        · omega
        · exact hz b hb

lemma sorted_sortedDedup (l : List Int) : (sortedDedup l).Sorted (· < ·) := by
  have key : ∀ (l acc : List Int), acc.Sorted (· < ·) →
      (l.foldl (fun a b => insSorted b a) acc).Sorted (· < ·) := by
    intro l
    induction l with
    | nil => intro acc h; simpa using h
    | cons z zs ih => intro acc h; exact ih _ (sorted_insSorted h)
  exact key l [] (by simp)

lemma mem_of_mem_dropWhile {α : Type} {p : α → Bool} {c : α} :
    ∀ {s : List α}, c ∈ s.dropWhile p → c ∈ s := by
  intro s
  induction s with
  | nil => simp [List.dropWhile]
  | cons a as ih =>
    simp only [List.dropWhile]
    split
    · intro h
      exact List.mem_cons_of_mem _ (ih h)
    · exact id

lemma mem_of_mem_pyStrip {c : Char} {s : List Char} (h : c ∈ pyStrip s) : c ∈ s := by
  unfold pyStrip at h
  rw [List.mem_reverse] at h
  have h2 := mem_of_mem_dropWhile h
  rw [List.mem_reverse] at h2
  exact mem_of_mem_dropWhile h2

lemma not_mem_breakAtFirst_fst (sep : Char) :
    ∀ l : List Char, sep ∉ (breakAtFirst sep l).1 := by
  intro l
  induction l with
  | nil => simp [breakAtFirst]
  | cons c cs ih =>
    simp only [breakAtFirst]
    by_cases h : c = sep
    · simp [h]
    · rw [if_neg h]
      intro hmem
      rcases List.mem_cons.mp hmem with h1 | h1
      · exact h h1.symm
      · exact ih h1

lemma pyIntChars?_nonneg {s : List Char} {n : Int} (hs : '-' ∉ s)
    (h : pyIntChars? s = some n) : 0 ≤ n := by
  unfold pyIntChars? at h
  cases hps : pyStrip s with
  | nil => rw [hps] at h; exact absurd h (by simp [pyIntCore?])
  | cons c rest =>
    rw [hps] at h
    simp only [pyIntCore?] at h
    have hc : ¬ c = '-' := by
      intro hc
      exact hs (mem_of_mem_pyStrip (hps ▸ (hc ▸ List.mem_cons_self c rest)))
    rw [if_neg hc] at h
    by_cases hplus : c = '+'
    · rw [if_pos hplus] at h
      split at h
      · injection h with h
        omega
      · exact absurd h (by simp)
    · rw [if_neg hplus] at h
      split at h
      · injection h with h
        omega
      · exact absurd h (by simp)

lemma le_of_mem_intRange {a b x : Int} (h : x ∈ intRange a b) : a ≤ x := by
  unfold intRange at h
  simp only [List.mem_map, List.mem_range] at h
  obtain ⟨k, hk, rfl⟩ := h
  have hk0 : (0 : Int) ≤ Int.ofNat k := Int.natCast_nonneg k
  linarith

lemma segIds_nonneg {p : List Char} {x : Int} (h : x ∈ segIds p) : 0 ≤ x := by
  unfold segIds at h
  split at h
  · exact absurd h (by simp)
  · split at h
    · rename_i hyph
      split at h
      · rename_i a b ha hb
        split at h
        · rename_i hab
          have h0 : (0 : Int) ≤ a :=
            pyIntChars?_nonneg (not_mem_breakAtFirst_fst '-' (pyStrip p)) ha
          have := le_of_mem_intRange h
          omega
        · exact absurd h (by simp)
      · exact absurd h (by simp)
    · rename_i hnh
      split at h
      · rename_i n hn
        have h0 : (0 : Int) ≤ n := pyIntChars?_nonneg hnh hn
        rcases List.mem_singleton.mp h with rfl
        exact h0
      · exact absurd h (by simp)

lemma mem_foldl_append_segIds {x : Int} (parts : List (List Char)) :
    ∀ acc : List Int,
      x ∈ parts.foldl (fun acc part => acc ++ segIds part) acc ↔
        x ∈ acc ∨ ∃ p ∈ parts, x ∈ segIds p := by
  induction parts with
  | nil => simp
  | cons q qs ih =>
    intro acc
    simp only [List.foldl_cons, ih, List.mem_append, List.mem_cons]
    constructor
    · rintro ((h | h) | ⟨p, hp, hx⟩)
      · exact Or.inl h
      · exact Or.inr ⟨q, Or.inl rfl, h⟩
      · exact Or.inr ⟨p, Or.inr hp, hx⟩
    · rintro (h | ⟨p, (rfl | hp), hx⟩)
      · exact Or.inl (Or.inl h)
      · exact Or.inl (Or.inr hx)
      · exact Or.inr ⟨p, hp, hx⟩

/-! ### Claims about the range parser (C6, C7, C10) -/

/-- C6: the range parser returns its result deduplicated and in ascending
order (its output is always strictly sorted, hence duplicate-free);
`parse_id_ranges "1-3,5,7-9"` yields exactly `[1,2,3,5,7,8,9]` and
`parse_id_ranges "1,1,1-2"` yields exactly `[1,2]`. -/
theorem parser_sorted_dedup_examples :
    (∀ s : String, (parse_id_ranges s).Sorted (· < ·)) ∧
    parse_id_ranges "1-3,5,7-9" = [1, 2, 3, 5, 7, 8, 9] ∧
    parse_id_ranges "1,1,1-2" = [1, 2] := by
  refine ⟨?_, by decide, by decide⟩
  intro s
  unfold parse_id_ranges
  split
  · simp
  · exact sorted_sortedDedup _

/-- C7: the range parser never fails: `None`, non-string and empty inputs
yield the empty list, a reversed range segment (`"5-3"`) contributes
nothing and is not reversed, and malformed segments are skipped
independently while the remaining segments are still processed
(`parse_id_ranges "abc,2,xyz-9" = [2]`). -/
theorem parser_total_skips_malformed :
    parse_id_ranges_py PyVal.vnone = [] ∧
    parse_id_ranges_py (PyVal.vint 7) = [] ∧
    parse_id_ranges_py (PyVal.vstr "") = [] ∧
    parse_id_ranges_py (PyVal.vstr "   ") = [] ∧
    parse_id_ranges "5-3" = [] ∧
    parse_id_ranges "abc,2,xyz-9" = [2] := by
  exact ⟨rfl, rfl, by decide, by decide, by decide, by decide⟩

/-- C10: every identifier returned by the range parser is non-negative:
a leading minus sign makes a segment contain a hyphen, so it is treated as a
range whose first half fails to parse, and the first half of a successfully
parsed range contains no minus sign, so its value (and everything in the
range above it) is non-negative. -/
theorem parser_ids_nonneg :
    ∀ (v : PyVal) (x : Int), x ∈ parse_id_ranges_py v → 0 ≤ x := by
  intro v x h
  cases v with
  | vnone => exact absurd h (by simp [parse_id_ranges_py])
  | vint n => exact absurd h (by simp [parse_id_ranges_py])
  | vstr s =>
    simp only [parse_id_ranges_py, parse_id_ranges] at h
    split at h
    · exact absurd h (by simp)
    · rw [mem_sortedDedup, mem_foldl_append_segIds] at h
      rcases h with h | ⟨p, _, hp⟩
      · exact absurd h (by simp)
      · exact segIds_nonneg hp

/-- Witness for C10 at a concrete input. -/
theorem parser_ids_nonneg_witness :
    2 ∈ parse_id_ranges_py (PyVal.vstr "2") ∧ (0 : Int) ≤ 2 :=
  ⟨by decide, parser_ids_nonneg (PyVal.vstr "2") 2 (by decide)⟩

/-! ### The object catalog and the button layout -/

/-- The per-object record built by `fetch_user_objects` (address, code and
detail text, already converted to strings). -/
structure ObjData where
  address : String
  code : String
  details : String
deriving DecidableEq

/-- An inline keyboard button: visible label and callback payload. -/
structure Button where
  text : String
  callback_data : String
deriving DecidableEq

/-- The trailing control row button appended by `build_keyboard`. -/
def refreshButton : Button :=
  { text := "🔄 ОБНОВИТЬ", callback_data := "refresh" }

/-- The button built for one `(id, data)` entry of the object map: the label
is the code-revealed form when this object is the one whose code is shown,
otherwise its address (bot.py lines 99-104). -/
def buttonFor (code_shown : Option Int) (p : Int × ObjData) : Button :=
  if code_shown = some p.1 then
    { text := "🔑 Код: " ++ p.2.code ++ " 🔑", callback_data := "show_" ++ toString p.1 }
  else
    { text := p.2.address, callback_data := "show_" ++ toString p.1 }

/-- Group a list into consecutive rows of two (the `while i < len(all_ids)`
loop with `COLS = 2`); a final odd element forms a row of one. -/
def chunk2 {α : Type} : List α → List (List α)
  | [] => []
  | [a] => [[a]]
  | a :: b :: rest => [a, b] :: chunk2 rest

/-- Embedding of `build_keyboard` (bot.py lines 84-110): one button per
object in insertion order, packed two per row, with a trailing refresh row.
The object map is a Python dict, modelled as an association list in
insertion order. -/
def build_keyboard (obj_map : List (Int × ObjData)) (code_shown : Option Int) :
    List (List Button) :=
  chunk2 (obj_map.map (buttonFor code_shown)) ++ [[refreshButton]]

lemma chunk2_flatten {α : Type} : ∀ l : List α, (chunk2 l).flatten = l
  | [] => by simp [chunk2]
  | [a] => by simp [chunk2]
  | a :: b :: rest => by simp [chunk2, chunk2_flatten rest]

lemma chunk2_row_bounds {α : Type} :
    ∀ l : List α, ∀ row ∈ chunk2 l, row ≠ [] ∧ row.length ≤ 2
  | [] => by simp [chunk2]
  | [a] => by simp [chunk2]
  | a :: b :: rest => by
    intro row hrow
    rcases List.mem_cons.mp hrow with rfl | h
    · simp
    · exact chunk2_row_bounds rest row h

/-! ### Claim C4: layout packing and label length -/

/-- Concrete two-object map used in the layout-packing claims: the first
object's label is longer than a budget of 2, the second is within it. -/
def kbObjs : List (Int × ObjData) :=
  [(1, { address := "aaaa", code := "c1", details := "d1" }),
   (2, { address := "bb", code := "c2", details := "d2" })]

/-- The first object row that `build_keyboard` produces for `kbObjs`. -/
def kbRow : List Button := [buttonFor none (kbObjs.get ⟨0, by decide⟩), buttonFor none (kbObjs.get ⟨1, by decide⟩)]

/-- C4 counterexample: the packer has no length budget.  With a budget of 2,
the object whose label `"aaaa"` is longer than the budget is not placed alone
on its own row: it shares its row with the next button. -/
theorem long_label_not_isolated_counterexample :
    ¬ (∀ row ∈ build_keyboard kbObjs none,
        ∀ b ∈ row, 2 < b.text.length → row.length = 1) := by
  decide

/-- C4 amended: `build_keyboard` ignores label lengths entirely.  Buttons are
packed strictly two per row in object order regardless of how long any label
is (only a trailing odd button gets a row of one), and a refresh control row
is appended last; flattening the rows recovers exactly the object buttons in
order followed by the refresh button. -/
theorem keyboard_packs_two_per_row (obj_map : List (Int × ObjData))
    (code_shown : Option Int) :
    (build_keyboard obj_map code_shown).flatten
        = obj_map.map (buttonFor code_shown) ++ [refreshButton] ∧
    ∀ row ∈ build_keyboard obj_map code_shown, row ≠ [] ∧ row.length ≤ 2 := by
  constructor
  · simp [build_keyboard, chunk2_flatten]
  · intro row hrow
    rcases List.mem_append.mp hrow with h | h
    · exact chunk2_row_bounds _ row h
    · rcases List.mem_singleton.mp h with rfl
      simp

/-- Witness for the amended C4 at a concrete keyboard and row. -/
theorem keyboard_packs_two_per_row_witness :
    (build_keyboard kbObjs none).flatten = kbObjs.map (buttonFor none) ++ [refreshButton] ∧
    (kbRow ≠ [] ∧ kbRow.length ≤ 2) :=
  ⟨(keyboard_packs_two_per_row kbObjs none).1,
   (keyboard_packs_two_per_row kbObjs none).2 kbRow (by decide)⟩

/-! ### Catalog resolution: `fetch_user_objects` -/

/-- One spreadsheet row as returned by `get_all_records` with the expected
headers: the cells the program reads.  Cell values are Python values
(gspread yields ints for numeric cells and strings otherwise). -/
structure Row where
  id : PyVal
  address : PyVal
  code : PyVal
  access : PyVal
  info : PyVal
  details : PyVal
deriving DecidableEq

/-- Models Python `str.strip()` on a `String`. -/
def pyStripStr (s : String) : String :=
  ⟨pyStrip s.data⟩

/-- Models Python `int(raw)` on a cell value: an int cell is itself, a string
cell is parsed, anything else fails (`TypeError`, caught by the loop). -/
def pyIntOf? : PyVal → Option Int
  | .vint n => some n
  | .vstr s => pyIntChars? s.data
  | .vnone => none

/-- The object id extracted from a row by the catalog loop
(bot.py lines 156-159): a missing or empty `ID` cell is skipped, otherwise
the cell must convert with `int(...)`. -/
def rowId? (r : Row) : Option Int :=
  match r.id with
  | .vnone => none
  | raw => if raw = .vstr "" then none else pyIntOf? raw

/-- The object record built from a row (bot.py lines 161-170): falsy cells
fall back to the placeholder strings, then everything is converted with
`str(...)`. -/
def objDataOf (r : Row) : ObjData :=
  { address := if pyTruthy r.address then pyStr r.address else pyStr (.vstr "Не указан")
    code := if pyTruthy r.code then pyStr r.code else pyStr (.vstr "Не указан")
    details := if pyTruthy r.details then pyStr r.details
      else pyStr (.vstr "ℹ️ Дополнительная информация недоступна.") }

/-- Python-dict insertion on an association list: replace the value in place
when the key is present (the key keeps its original position), otherwise
append the binding at the end. -/
def dictInsert (m : List (Int × ObjData)) (k : Int) (v : ObjData) :
    List (Int × ObjData) :=
  if m.any (fun p => p.1 = k) then m.map (fun p => if p.1 = k then (k, v) else p)
  else m ++ [(k, v)]

/-- One iteration of the catalog loop: rows without a usable id and rows
whose id is not in the authorized set are skipped, others are inserted into
the object map. -/
def ingestRow (target_ids : List Int) (m : List (Int × ObjData)) (r : Row) :
    List (Int × ObjData) :=
  match rowId? r with
  | none => m
  | some obj_id => if obj_id ∈ target_ids then dictInsert m obj_id (objDataOf r) else m

/-- The pure part of `fetch_user_objects` (bot.py lines 131-174), operating
on already-fetched rows: find the first row whose trimmed access cell equals
the user id (as a string); if none, return `none`; otherwise parse that
row's range expression and build the object map over all rows, in row order.
The network fetch itself and its exception path (which also yields `None`)
are the caller's environment. -/
def fetch_user_objects_pure (user_id : String) (records : List Row) :
    Option (List (Int × ObjData)) :=
  match records.find? (fun r => pyStripStr (pyStr r.access) = user_id) with
  | none => none
  | some user_record =>
    if parse_id_ranges (pyStripStr (pyStr user_record.info)) = [] then some []
    else
      some (records.foldl
        (ingestRow (parse_id_ranges (pyStripStr (pyStr user_record.info)))) [])

/-- Append-preserving deduplication: fold a list into an accumulator keeping
only first occurrences, preserving encounter order. -/
def dedupAppend (acc : List Int) : List Int → List Int
  | [] => acc
  | x :: xs => dedupAppend (if x ∈ acc then acc else acc ++ [x]) xs

lemma keys_dictInsert (m : List (Int × ObjData)) (k : Int) (v : ObjData) :
    (dictInsert m k v).map Prod.fst =
      if k ∈ m.map Prod.fst then m.map Prod.fst else m.map Prod.fst ++ [k] := by
  unfold dictInsert
  by_cases h : m.any (fun p => p.1 = k) = true
  · rw [if_pos h]
    have hk : k ∈ m.map Prod.fst := by
      rw [List.any_eq_true] at h
      obtain ⟨p, hp, hpk⟩ := h
      rw [decide_eq_true_eq] at hpk
      exact List.mem_map.mpr ⟨p, hp, hpk⟩
    rw [if_pos hk, List.map_map]
    apply List.map_congr_left
    intro p hp
    by_cases hpk : p.1 = k
    · simp [hpk]
    · simp [hpk]
  · rw [if_neg h]
    have hk : k ∉ m.map Prod.fst := by
      intro hmem
      obtain ⟨p, hp, hpk⟩ := List.mem_map.mp hmem
      exact h (List.any_eq_true.mpr ⟨p, hp, decide_eq_true hpk⟩)
    rw [if_neg hk, List.map_append]
    simp

lemma mem_dedupAppend {y : Int} :
    ∀ (l acc : List Int), y ∈ dedupAppend acc l ↔ y ∈ acc ∨ y ∈ l := by
  intro l
  induction l with
  | nil => intro acc; simp [dedupAppend]
  | cons x xs ih =>
    intro acc
    simp only [dedupAppend, ih, List.mem_cons]
    by_cases hx : x ∈ acc
    · rw [if_pos hx]
      constructor
      · rintro (h | h)
        · exact Or.inl h
        · exact Or.inr (Or.inr h)
      · rintro (h | rfl | h)
        · exact Or.inl h
        · exact Or.inl hx
        · exact Or.inr h
    · rw [if_neg hx]
      simp only [List.mem_append, List.mem_singleton]
      tauto

lemma nodup_dedupAppend :
    ∀ (l acc : List Int), acc.Nodup → (dedupAppend acc l).Nodup := by
  intro l
  induction l with
  | nil => intro acc h; simpa [dedupAppend] using h
  | cons x xs ih =>
    intro acc h
    simp only [dedupAppend]
    by_cases hx : x ∈ acc
    · rw [if_pos hx]
      exact ih acc h
    · rw [if_neg hx]
      apply ih
      simp [List.nodup_append, h, hx]

lemma keys_foldl_ingest (tids : List Int) :
    ∀ (records : List Row) (acc : List (Int × ObjData)),
      ((records.foldl (ingestRow tids) acc).map Prod.fst)
        = dedupAppend (acc.map Prod.fst)
            ((records.filterMap rowId?).filter (fun x => x ∈ tids)) := by
  intro records
  induction records with
  | nil => intro acc; simp [dedupAppend]
  | cons r rs ih =>
    intro acc
    rw [List.foldl_cons, List.filterMap_cons]
    cases hr : rowId? r with
    | none => simp [ingestRow, hr, ih]
    | some i =>
      simp only [ingestRow, hr]
      by_cases hi : i ∈ tids
      · rw [if_pos hi, ih, List.filter_cons, if_pos (by simpa using hi)]
        simp only [dedupAppend, keys_dictInsert]
      · rw [if_neg hi, ih, List.filter_cons, if_neg (by simpa using hi)]

/-! ### Claim C5: shape of the resolved object list -/

/-- Concrete catalog rows whose ids appear out of ascending order: the row
with id 5 precedes the row with id 2, and user `"7"` is authorized for
`"2,5"`. -/
def rowA : Row :=
  { id := .vint 5, address := .vstr "addr5", code := .vstr "c5",
    access := .vstr "", info := .vstr "", details := .vstr "" }

def rowB : Row :=
  { id := .vint 2, address := .vstr "addr2", code := .vstr "c2",
    access := .vstr "7", info := .vstr "2,5", details := .vstr "" }

def demoRecords : List Row := [rowA, rowB]

/-- C5 counterexample: the resolved object list follows catalog row order,
not ascending numeric order.  For user `"7"` with authorized set `{2, 5}`
and catalog rows listing id 5 before id 2, the resolved keys are `[5, 2]`,
which is not sorted ascending. -/
theorem catalog_order_counterexample :
    ((fetch_user_objects_pure "7" demoRecords).getD []).map Prod.fst = [5, 2] ∧
    ¬ (((fetch_user_objects_pure "7" demoRecords).getD []).map Prod.fst).Sorted (· ≤ ·) := by
  decide

/-- C5 amended: the object list produced by catalog resolution contains
exactly the authorized identifiers that occur in the catalog rows (authorized
ids absent from the catalog are silently dropped), with no duplicate
identifiers, ordered by first occurrence in the catalog rows (not by
ascending numeric identifier). -/
theorem catalog_keys_exact_nodup_row_order (user_id : String) (records : List Row)
    (r : Row)
    (hfind : records.find? (fun r => pyStripStr (pyStr r.access) = user_id) = some r) :
    ∃ m, fetch_user_objects_pure user_id records = some m ∧
      m.map Prod.fst = dedupAppend []
          ((records.filterMap rowId?).filter
            (fun x => x ∈ parse_id_ranges (pyStripStr (pyStr r.info)))) ∧
      (m.map Prod.fst).Nodup ∧
      ∀ x, x ∈ m.map Prod.fst ↔
        (x ∈ parse_id_ranges (pyStripStr (pyStr r.info)) ∧ x ∈ records.filterMap rowId?) := by
  unfold fetch_user_objects_pure
  rw [hfind]
  dsimp only
  by_cases htgt : parse_id_ranges (pyStripStr (pyStr r.info)) = []
  · rw [if_pos htgt]
    refine ⟨[], rfl, ?_, by simp, ?_⟩
    · simp [htgt, dedupAppend]
    · intro x
      simp [htgt]
  · rw [if_neg htgt]
    refine ⟨_, rfl, ?_, ?_, ?_⟩
    · simpa using keys_foldl_ingest _ records []
    · rw [keys_foldl_ingest]
      exact nodup_dedupAppend _ _ (by simp)
    · intro x
      rw [keys_foldl_ingest, mem_dedupAppend]
      simp [List.mem_filter]
      tauto

/-- Witness for the amended C5 on the concrete demo catalog. -/
theorem catalog_keys_exact_nodup_row_order_witness :
    ∃ m, fetch_user_objects_pure "7" demoRecords = some m ∧
      m.map Prod.fst = dedupAppend []
          ((demoRecords.filterMap rowId?).filter
            (fun x => x ∈ parse_id_ranges (pyStripStr (pyStr rowB.info)))) ∧
      (m.map Prod.fst).Nodup ∧
      ∀ x, x ∈ m.map Prod.fst ↔
        (x ∈ parse_id_ranges (pyStripStr (pyStr rowB.info)) ∧
          x ∈ demoRecords.filterMap rowId?) :=
  catalog_keys_exact_nodup_row_order "7" demoRecords rowB (by decide)

/-! ### The disclosure session state machine -/

/-- A scheduled `auto_hide_code` task.  `obj` is the object id it was created
for; `sched` records how many refresh/toggle events the session had processed
when the task was scheduled (trace bookkeeping used to state staleness
claims); `cancelled` is set by `task.cancel()`, and `fired` once the body has
run. -/
structure TimerRec where
  obj : Int
  sched : Nat
  cancelled : Bool
  fired : Bool
deriving DecidableEq

/-- The per-conversation session state held in `context.chat_data`, together
with the trace of every auto-hide task ever created (`timers`) and the count
of refresh/toggle events processed so far (`nEvents`); the last two are
history bookkeeping needed to state the timer-staleness claims, not extra
program state.  `hide_task` is the index into `timers` of the task currently
referenced by `chat_data["hide_task"]`.  The `details_msg_id` bookkeeping of
the details message is omitted: no claim concerns it and it does not feed
back into any modelled field. -/
structure SessionState where
  obj_map : Option (List (Int × ObjData))
  code_shown : Option Int
  hide_task : Option Nat
  timers : List TimerRec
  nEvents : Nat
deriving DecidableEq

/-- A conversation before any handler has touched `chat_data`. -/
def SessionState.init : SessionState :=
  { obj_map := none, code_shown := none, hide_task := none, timers := [], nEvents := 0 }

/-- The task at index `j` is scheduled, not cancelled, and has not fired. -/
def liveAt (s : SessionState) (j : Nat) : Prop :=
  ∃ t, s.timers[j]? = some t ∧ t.cancelled = false ∧ t.fired = false

/-- Models `old_task = context.chat_data.get("hide_task"); if old_task and
not old_task.done(): old_task.cancel()`: cancel the referenced task unless
there is none or it is already done (cancelled or fired). -/
def cancelCurrent (s : SessionState) : List TimerRec :=
  match s.hide_task with
  | none => s.timers
  | some i =>
    match s.timers[i]? with
    | none => s.timers
    | some t =>
      if t.cancelled || t.fired then s.timers
      else s.timers.set i { t with cancelled := true }

/-- The render instruction a handler emits back to the transport. -/
inductive Render where
  | noAccess : String → Render
  | emptyObjects : Render
  | chooseObject : List (List Button) → Render
  | invalidRequest : Render
  | notFound : Render
  | markup : List (List Button) → Render
deriving DecidableEq

/-- Models `int(query.data.split("_", 1)[1])` on the callback payload:
`none` when there is no underscore (`IndexError`) or when the text after the
first underscore does not parse as an int (`ValueError`). -/
def payloadInt? (data : String) : Option Int :=
  if '_' ∈ data.data then pyIntChars? (breakAtFirst '_' data.data).2 else none

/-- The toggle core of `show_code_callback` (bot.py lines 299-344), reached
with a nonempty freshly fetched map `m` already stored in `chat_data` and a
validated object id.  Toggling the revealed object cancels the pending task
and hides the code; toggling another object cancels the pending task, records
the new reveal and schedules a fresh auto-hide task.  The handler finishes by
rebuilding the keyboard from the new `code_shown`. -/
def toggle_core (m : List (Int × ObjData)) (obj_id : Int) (s : SessionState) :
    SessionState × Render :=
  if s.code_shown = some obj_id then
    ({ s with code_shown := none, hide_task := none, timers := cancelCurrent s },
     Render.markup (build_keyboard m none))
  else
    ({ s with
       code_shown := some obj_id,
       hide_task := some (cancelCurrent s).length,
       timers := cancelCurrent s
         ++ [{ obj := obj_id, sched := s.nEvents, cancelled := false, fired := false }] },
     Render.markup (build_keyboard m (some obj_id)))

/-- Embedding of `show_code_callback` (bot.py lines 269-344).  The fetch
result `f` is the handler's environment; `none` models both an unauthorized
user and a fetch failure, exactly as `fetch_user_objects` conflates them by
returning `None` for both.  On `none` or an empty map the handler clears
`chat_data`, dropping the task reference without cancelling the task.
Otherwise the fresh map is stored (before payload validation), the payload is
parsed, and the toggle core runs when the object exists in the fresh map. -/
def show_code_step (uid : String) (f : Option (List (Int × ObjData))) (data : String)
    (s₀ : SessionState) : SessionState × Render :=
  let s := { s₀ with nEvents := s₀.nEvents + 1 }
  match f with
  | none =>
    ({ s with obj_map := none, code_shown := none, hide_task := none },
     Render.noAccess uid)
  | some m =>
    if m = [] then
      ({ s with obj_map := none, code_shown := none, hide_task := none },
       Render.emptyObjects)
    else
      let s₁ := { s with obj_map := some m }
      match payloadInt? data with
      | none => (s₁, Render.invalidRequest)
      | some obj_id =>
        if m.any (fun p => p.1 = obj_id) then toggle_core m obj_id s₁
        else (s₁, Render.notFound)

/-- Embedding of `refresh_callback` (bot.py lines 232-267) with the fetch
result as environment: fetch failure or no access clears `chat_data` and
shows the no-access message; an empty map clears `chat_data` and shows the
empty notice; otherwise the snapshot is replaced, the reveal reset, the
pending task cancelled and the listing re-rendered. -/
def refresh_step (uid : String) (f : Option (List (Int × ObjData)))
    (s₀ : SessionState) : SessionState × Render :=
  let s := { s₀ with nEvents := s₀.nEvents + 1 }
  match f with
  | none =>
    ({ s with obj_map := none, code_shown := none, hide_task := none },
     Render.noAccess uid)
  | some m =>
    if m = [] then
      ({ s with obj_map := none, code_shown := none, hide_task := none },
       Render.emptyObjects)
    else
      ({ s with
         obj_map := some m,
         code_shown := none,
         hide_task := none,
         timers := cancelCurrent s },
       Render.chooseObject (build_keyboard m none))

/-- Embedding of the body of `auto_hide_code` (bot.py lines 181-195) running
when the task at index `i` resumes after its sleep.  A task cancelled before
resuming never runs its body (asyncio delivers the cancellation at the resume
point, before the body), and a task runs at most once.  The body hides the
code only when the currently shown id equals the id the task was created
for, and re-renders the keyboard when a truthy object map is present. -/
def auto_hide_fire (i : Nat) (s : SessionState) : SessionState × Option Render :=
  match s.timers[i]? with
  | none => (s, none)
  | some t =>
    if t.cancelled || t.fired then (s, none)
    else
      let s₁ := { s with timers := s.timers.set i { t with fired := true } }
      if s₁.code_shown = some t.obj then
        let s₂ := { s₁ with code_shown := none }
        match s₂.obj_map with
        | some m =>
          if m = [] then (s₂, none)
          else (s₂, some (Render.markup (build_keyboard m none)))
        | none => (s₂, none)
      else (s₁, none)

/-- An inbound session event together with its environment: the fetch result
a refresh or toggle will observe, or the resumption of a scheduled task. -/
inductive Event where
  | toggle : Option (List (Int × ObjData)) → String → Event
  | refresh : Option (List (Int × ObjData)) → Event
  | timerFired : Nat → Event

/-- Process one event against the session state. -/
def step (uid : String) (s : SessionState) : Event → SessionState
  | .toggle f data => (show_code_step uid f data s).1
  | .refresh f => (refresh_step uid f s).1
  | .timerFired i => (auto_hide_fire i s).1

/-- Process a sequence of events. -/
def run (uid : String) (evs : List Event) (s : SessionState) : SessionState :=
  evs.foldl (step uid) s

/-- The callback-data pattern `^show_\d+$` with which `show_code_callback`
is registered (bot.py line 367), over ASCII digits. -/
def showPattern (data : String) : Bool :=
  match data.data with
  | c1 :: c2 :: c3 :: c4 :: c5 :: rest =>
    c1 = 's' && c2 = 'h' && c3 = 'o' && c4 = 'w' && c5 = '_'
      && !rest.isEmpty && rest.all Char.isDigit
  | _ => false

/-- The callback dispatch of `main` (bot.py lines 365-368): callback data is
routed to `refresh_callback` on exact match `refresh`, to
`show_code_callback` on regex match `^show_\d+$`, and otherwise to no
handler at all (no render is produced and the state is untouched). -/
def dispatch (uid : String) (data : String) (f : Option (List (Int × ObjData)))
    (s : SessionState) : SessionState × Option Render :=
  if data = "refresh" then
    ((refresh_step uid f s).1, some (refresh_step uid f s).2)
  else if showPattern data then
    ((show_code_step uid f data s).1, some (show_code_step uid f data s).2)
  else (s, none)

/-! ### Claim C1: fetch failure during refresh/toggle -/

/-- Single-object map used in the session traces. -/
def M2 : List (Int × ObjData) := [(2, { address := "a", code := "c", details := "d" })]

/-- A session in which object 2 has just been revealed: one live auto-hide
task is pending. -/
def sRevealed : SessionState := run "u" [Event.toggle (some M2) "show_2"] SessionState.init

/-- C1 counterexample: a refresh whose fetch fails (`fetch_user_objects`
returns `None`) does not leave the session state unchanged and does not
render a retryable temporarily-unavailable message: it clears the stored
snapshot and the revealed id and renders the no-access message. -/
theorem fetch_failure_counterexample :
    sRevealed.code_shown = some 2 ∧ sRevealed.obj_map = some M2 ∧
    sRevealed.hide_task = some 0 ∧
    (refresh_step "u" none sRevealed).1.code_shown = none ∧
    (refresh_step "u" none sRevealed).1.obj_map = none ∧
    (refresh_step "u" none sRevealed).1.hide_task = none ∧
    (refresh_step "u" none sRevealed).2 = Render.noAccess "u" := by
  decide

/-- C1 amended: a Refresh or Toggle whose catalog fetch fails is
indistinguishable from a deauthorized user (`fetch_user_objects` returns
`None` for both) and renders the no-access message, after which
`chat_data.clear()` wipes the stored snapshot, the revealed id and the task
reference; the scheduled tasks themselves are not cancelled, so a live task
stays live. -/
theorem fetch_failure_clears_session (uid data : String) (s : SessionState) :
    refresh_step uid none s =
      ({ s with
         obj_map := none,
         code_shown := none,
         hide_task := none,
         nEvents := s.nEvents + 1 }, Render.noAccess uid) ∧
    show_code_step uid none data s =
      ({ s with
         obj_map := none,
         code_shown := none,
         hide_task := none,
         nEvents := s.nEvents + 1 }, Render.noAccess uid) ∧
    ∀ j, liveAt s j ↔ liveAt (refresh_step uid none s).1 j := by
  exact ⟨rfl, rfl, fun j => Iff.rfl⟩

/-! ### Claim C8: malformed toggle payloads -/

/-- C8 counterexample: a Toggle whose payload is non-numeric (`show_abc`)
matches neither registered callback pattern, so no handler runs: the state
is untouched but no render at all is produced, in particular not the
invalid-request render. -/
theorem malformed_toggle_counterexample :
    dispatch "u" "show_abc" (some M2) SessionState.init = (SessionState.init, none) ∧
    (none : Option Render) ≠ some Render.invalidRequest := by
  decide

lemma digit_char_facts {c : Char} (hc : c.isDigit = true) :
    pyIsSpace c = false ∧ ¬ c = '-' ∧ ¬ c = '+' := by
  have k : ∀ d : Char, c = d → d.isDigit = false → False := by
    intro d hd hdig
    rw [hd, hdig] at hc
    exact Bool.false_ne_true hc
  refine ⟨?_, fun h => k '-' h (by decide), fun h => k '+' h (by decide)⟩
  have h1 : ¬ c = ' ' := fun h => k ' ' h (by decide)
  have h2 : ¬ c = '\t' := fun h => k '\t' h (by decide)
  have h3 : ¬ c = '\n' := fun h => k '\n' h (by decide)
  have h4 : ¬ c = '\r' := fun h => k '\r' h (by decide)
  have h5 : ¬ c = '\x0b' := fun h => k '\x0b' h (by decide)
  have h6 : ¬ c = '\x0c' := fun h => k '\x0c' h (by decide)
  simp [pyIsSpace, h1, h2, h3, h4, h5, h6]

lemma dropWhile_space_of_digits {l : List Char} (h : l.all Char.isDigit = true) :
    l.dropWhile pyIsSpace = l := by
  cases l with
  | nil => rfl
  | cons c cs =>
    have hc : c.isDigit = true := by
      rw [List.all_cons, Bool.and_eq_true] at h
      exact h.1
    rw [List.dropWhile_cons, if_neg (by simp [(digit_char_facts hc).1])]

lemma all_digits_reverse {l : List Char} (h : l.all Char.isDigit = true) :
    l.reverse.all Char.isDigit = true := by
  rw [List.all_eq_true] at h ⊢
  intro c hcm
  exact h c (List.mem_reverse.mp hcm)

lemma pyStrip_of_digits {l : List Char} (h : l.all Char.isDigit = true) :
    pyStrip l = l := by
  unfold pyStrip
  rw [dropWhile_space_of_digits h, dropWhile_space_of_digits (all_digits_reverse h),
    List.reverse_reverse]

lemma pyIntChars?_of_digits {l : List Char} (hne : l ≠ []) (h : l.all Char.isDigit = true) :
    pyIntChars? l = some ((digitsVal l : Int)) := by
  unfold pyIntChars?
  rw [pyStrip_of_digits h]
  cases l with
  | nil => exact absurd rfl hne
  | cons c cs =>
    have hc : c.isDigit = true := by
      rw [List.all_cons, Bool.and_eq_true] at h
      exact h.1
    obtain ⟨_, hm, hp⟩ := digit_char_facts hc
    simp only [pyIntCore?]
    rw [if_neg hm, if_neg hp, if_pos h]

lemma payloadInt?_of_showPattern {data : String} (h : showPattern data = true) :
    ∃ n : Int, payloadInt? data = some n := by
  unfold showPattern at h
  cases hd : data.data with
  | nil => rw [hd] at h; exact absurd h (by simp)
  | cons c1 t1 =>
    cases t1 with
    | nil => rw [hd] at h; exact absurd h (by simp)
    | cons c2 t2 =>
      cases t2 with
      | nil => rw [hd] at h; exact absurd h (by simp)
      | cons c3 t3 =>
        cases t3 with
        | nil => rw [hd] at h; exact absurd h (by simp)
        | cons c4 t4 =>
          cases t4 with
          | nil => rw [hd] at h; exact absurd h (by simp)
          | cons c5 rest =>
            rw [hd] at h
            simp only [Bool.and_eq_true, decide_eq_true_eq] at h
            obtain ⟨⟨⟨⟨⟨⟨e1, e2⟩, e3⟩, e4⟩, e5⟩, h6⟩, h7⟩ := h
            subst e1
            subst e2
            subst e3
            subst e4
            subst e5
            have hne : rest ≠ [] := by
              cases rest with
              | nil => simp at h6
              | cons r rs => simp
            refine ⟨(digitsVal rest : Int), ?_⟩
            unfold payloadInt?
            rw [hd, if_pos (by simp)]
            have hb : (breakAtFirst '_' ('s' :: 'h' :: 'o' :: 'w' :: '_' :: rest)).2
                = rest := by
              simp [breakAtFirst]
            rw [hb]
            exact pyIntChars?_of_digits hne h7

/-- C8 amended: callback data that is neither `refresh` nor matches
`^show_\d+$` — in particular any Toggle payload with a non-numeric object
id — is routed to no handler at all: the session state is left entirely
unchanged and no render (not even an invalid-request one) is produced.
Conversely every payload matching the show pattern parses successfully,
so the handler's own invalid-request branch is unreachable through the
dispatcher. -/
theorem malformed_toggle_ignored (uid data : String)
    (f : Option (List (Int × ObjData))) (s : SessionState)
    (hr : data ≠ "refresh") (hs : showPattern data = false) :
    dispatch uid data f s = (s, none) ∧
    ∀ d : String, showPattern d = true → ∃ n : Int, payloadInt? d = some n := by
  constructor
  · unfold dispatch
    rw [if_neg hr, if_neg (by simp [hs])]
  · exact fun d hd => payloadInt?_of_showPattern hd

/-- Witness for the amended C8 at the concrete payload `show_abc`. -/
theorem malformed_toggle_ignored_witness :
    dispatch "u" "show_abc" (some M2) sRevealed = (sRevealed, none) ∧
    ∀ d : String, showPattern d = true → ∃ n : Int, payloadInt? d = some n :=
  malformed_toggle_ignored "u" "show_abc" (some M2) sRevealed (by decide) (by decide)

/-! ### Claim C2: stale timer firings -/

/-- A session reached by revealing object 2 and then toggling it again:
the code is hidden and the task for object 2 is cancelled. -/
def sHidden : SessionState :=
  run "u" [Event.toggle (some M2) "show_2", Event.toggle (some M2) "show_2"]
    SessionState.init

/-- A session reached by revealing object 2 and then toggling an id absent
from the fresh map (`show_5`, not found): the handler returns early without
cancelling the pending task, so the task scheduled at event 1 is still live
although a later toggle has been processed, and object 2 is still revealed. -/
def sStale : SessionState :=
  run "u" [Event.toggle (some M2) "show_2", Event.toggle (some M2) "show_5"]
    SessionState.init

/-- C2 counterexample: a timer whose tag is older than the session's current
generation is not a no-op when the currently revealed object has the same id
the timer was scheduled for.  In `sStale` the task at index 0 was scheduled
at event count 1, two toggles have been processed (`nEvents = 2`, so the
task is stale in the claim's sense), it is still live, and object 2 — the id
it was created for — is revealed again; firing it hides the code, changing
the revealed id. -/
theorem stale_timer_counterexample :
    sStale.timers[0]? = some { obj := 2, sched := 1, cancelled := false, fired := false } ∧
    sStale.nEvents = 2 ∧
    sStale.code_shown = some 2 ∧
    (auto_hide_fire 0 sStale).1.code_shown = none := by
  decide

/-- C2 amended: the body of `auto_hide_code` validates a firing only by
comparing the task's object id with the currently revealed id, not by a
generation tag: a fired task whose object id differs from the currently
revealed id changes neither the revealed id, nor the event count, nor the
task reference, nor the stored snapshot — but a stale-yet-live task whose
object id equals the currently revealed one does hide the code when it
fires. -/
theorem timer_fire_guards_on_id (i : Nat) (s : SessionState) (t : TimerRec)
    (hget : s.timers[i]? = some t) (hne : ¬ s.code_shown = some t.obj) :
    (auto_hide_fire i s).1.code_shown = s.code_shown ∧
    (auto_hide_fire i s).1.nEvents = s.nEvents ∧
    (auto_hide_fire i s).1.hide_task = s.hide_task ∧
    (auto_hide_fire i s).1.obj_map = s.obj_map := by
  unfold auto_hide_fire
  rw [hget]
  dsimp only
  by_cases hdone : (t.cancelled || t.fired) = true
  · rw [if_pos hdone]
    exact ⟨rfl, rfl, rfl, rfl⟩
  · rw [if_neg hdone, if_neg hne]
    exact ⟨rfl, rfl, rfl, rfl⟩

/-- Witness for the amended C2: in the session where object 2 was revealed
and hidden again, the cancelled task for object 2 does not match the (empty)
revealed id, and firing it leaves everything unchanged. -/
theorem timer_fire_guards_on_id_witness :
    (auto_hide_fire 0 sHidden).1.code_shown = sHidden.code_shown ∧
    (auto_hide_fire 0 sHidden).1.nEvents = sHidden.nEvents ∧
    (auto_hide_fire 0 sHidden).1.hide_task = sHidden.hide_task ∧
    (auto_hide_fire 0 sHidden).1.obj_map = sHidden.obj_map :=
  timer_fire_guards_on_id 0 sHidden
    { obj := 2, sched := 1, cancelled := true, fired := false }
    (by decide) (by decide)

/-! ### Claim C3: toggle sequences, revealed state and live timers -/

/-- The session invariant tying the pending-task reference to the revealed
id: every live task is the one referenced by `hide_task` and its object is
the revealed one, and a revealed id always has a live task. -/
def SessionInv (s : SessionState) : Prop :=
  (∀ (j : Nat) (t : TimerRec), s.timers[j]? = some t →
    t.cancelled = false → t.fired = false →
    s.hide_task = some j ∧ s.code_shown = some t.obj) ∧
  (∀ id : Int, s.code_shown = some id →
    ∃ (j : Nat) (t : TimerRec), s.timers[j]? = some t ∧
      t.cancelled = false ∧ t.fired = false ∧ t.obj = id)

lemma cancelCurrent_kills (s : SessionState)
    (h1 : ∀ (j : Nat) (t : TimerRec), s.timers[j]? = some t →
      t.cancelled = false → t.fired = false →
      s.hide_task = some j ∧ s.code_shown = some t.obj) :
    ∀ (j : Nat) (t : TimerRec), (cancelCurrent s)[j]? = some t →
      t.cancelled = false → t.fired = false → False := by
  intro j t hj hc hf
  unfold cancelCurrent at hj
  cases hht : s.hide_task with
  | none =>
    rw [hht] at hj
    obtain ⟨hh, _⟩ := h1 j t hj hc hf
    rw [hht] at hh
    exact Option.noConfusion hh
  | some i =>
    rw [hht] at hj
    dsimp only at hj
    cases hgt : s.timers[i]? with
    | none =>
      rw [hgt] at hj
      obtain ⟨hh, _⟩ := h1 j t hj hc hf
      rw [hht] at hh
      injection hh with hij
      subst hij
      rw [hgt] at hj
      exact Option.noConfusion hj
    | some t0 =>
      rw [hgt] at hj
      dsimp only at hj
      by_cases hd : (t0.cancelled || t0.fired) = true
      · rw [if_pos hd] at hj
        obtain ⟨hh, _⟩ := h1 j t hj hc hf
        rw [hht] at hh
        injection hh with hij
        subst hij
        rw [hgt] at hj
        injection hj with ht0
        subst ht0
        rw [hc, hf] at hd
        simp at hd
      · rw [if_neg hd] at hj
        by_cases hij : i = j
        · subst hij
          have hlen : i < s.timers.length := (List.getElem?_eq_some_iff.mp hgt).1
          rw [List.getElem?_set_self hlen] at hj
          injection hj with ht
          rw [← ht] at hc
          simp at hc
        · rw [List.getElem?_set_ne hij] at hj
          obtain ⟨hh, _⟩ := h1 j t hj hc hf
          rw [hht] at hh
          injection hh with hij2
          exact hij hij2

lemma inv_toggle (uid data : String) (m : List (Int × ObjData)) (s : SessionState)
    (hm : m ≠ []) (hInv : SessionInv s) :
    SessionInv (show_code_step uid (some m) data s).1 := by
  obtain ⟨h1, h2⟩ := hInv
  unfold show_code_step
  dsimp only
  rw [if_neg hm]
  cases hp : payloadInt? data with
  | none =>
    exact ⟨fun j t hj hc hf => h1 j t hj hc hf, fun id hid => h2 id hid⟩
  | some obj_id =>
    dsimp only
    by_cases hin : (m.any fun p => p.1 = obj_id) = true
    · rw [if_pos hin]
      unfold toggle_core
      by_cases hcur : s.code_shown = some obj_id
      · rw [if_pos hcur]
        constructor
        · intro j t hj hc hf
          exact (cancelCurrent_kills _ h1 j t hj hc hf).elim
        · intro id hid
          exact absurd hid (by simp)
      · rw [if_neg hcur]
        constructor
        · intro j t hj hc hf
          dsimp only at hj
          by_cases hj_lt : j < (cancelCurrent
              { s with nEvents := s.nEvents + 1, obj_map := some m }).length
          · rw [List.getElem?_append_left hj_lt] at hj
            exact (cancelCurrent_kills _ h1 j t hj hc hf).elim
          · by_cases hjeq : j = (cancelCurrent
                { s with nEvents := s.nEvents + 1, obj_map := some m }).length
            · subst hjeq
              rw [List.getElem?_concat_length] at hj
              injection hj with ht
              subst ht
              exact ⟨rfl, rfl⟩
            · have hnone : (cancelCurrent { s with nEvents := s.nEvents + 1, obj_map := some m }
                  ++ [{ obj := obj_id, sched := s.nEvents + 1, cancelled := false,
                        fired := false }])[j]? = none := by
                rw [List.getElem?_eq_none_iff]
                simp only [List.length_append, List.length_singleton]
                omega
              rw [hnone] at hj
              exact absurd hj (by simp)
        · intro id hid
          injection hid with hiid
          subst hiid
          exact ⟨_, _, List.getElem?_concat_length _ _, rfl, rfl, rfl⟩
    · rw [if_neg hin]
      exact ⟨fun j t hj hc hf => h1 j t hj hc hf, fun id hid => h2 id hid⟩

lemma inv_init : SessionInv SessionState.init := by
  constructor
  · intro j t hj
    simp [SessionState.init] at hj
  · intro id hid
    simp [SessionState.init] at hid

lemma inv_run (uid : String) (evs : List Event)
    (hall : ∀ e ∈ evs, ∃ f data m, e = Event.toggle f data ∧ f = some m ∧ m ≠ []) :
    ∀ s, SessionInv s → SessionInv (run uid evs s) := by
  induction evs with
  | nil => exact fun s h => h
  | cons e es ih =>
    intro s h
    obtain ⟨f, data, m, rfl, rfl, hm⟩ := hall _ (List.mem_cons_self e es)
    simp only [run, List.foldl_cons]
    exact ih (fun e' he' => hall e' (List.mem_cons_of_mem _ he')) _
      (inv_toggle uid data m s hm h)

/-- A session reached by revealing object 2 and then processing a toggle
whose fetch fails: `chat_data.clear()` drops the task reference without
cancelling the task, leaving a live timer while nothing is revealed. -/
def sLeak : SessionState :=
  run "u" [Event.toggle (some M2) "show_2", Event.toggle none "show_2"]
    SessionState.init

/-- C3 counterexample: after the two-toggle sequence in which the second
toggle's fetch fails, no object is revealed but the auto-hide task scheduled
by the first toggle is still live (scheduled, not fired, not cancelled), so
a live timer exists without any revealed object. -/
theorem toggle_sequence_counterexample :
    liveAt sLeak 0 ∧ sLeak.code_shown = none ∧
    ¬ ((∃ j, liveAt sLeak j) ↔ sLeak.code_shown.isSome = true) := by
  have hlive : liveAt sLeak 0 :=
    ⟨{ obj := 2, sched := 1, cancelled := false, fired := false }, by decide, rfl, rfl⟩
  have hnone : sLeak.code_shown = none := by decide
  refine ⟨hlive, hnone, ?_⟩
  intro hiff
  have hsome := hiff.mp ⟨0, hlive⟩
  rw [hnone] at hsome
  exact Bool.false_ne_true hsome

/-- C3 amended: for a sequence of Toggle events in which every fetch
succeeds with a nonempty object map, the final state has at most one
revealed object, all live auto-hide timers coincide (so there is at most
one), and a live timer exists exactly when an object is revealed.  A Toggle
whose fetch fails or returns an empty map breaks the equivalence, because
`chat_data.clear()` drops the pending task without cancelling it. -/
theorem toggle_sequences_one_live_timer (uid : String) (evs : List Event)
    (hall : ∀ e ∈ evs, ∃ f data m, e = Event.toggle f data ∧ f = some m ∧ m ≠ []) :
    (∀ a b : Int, (run uid evs SessionState.init).code_shown = some a →
      (run uid evs SessionState.init).code_shown = some b → a = b) ∧
    (∀ j k, liveAt (run uid evs SessionState.init) j →
      liveAt (run uid evs SessionState.init) k → j = k) ∧
    ((∃ j, liveAt (run uid evs SessionState.init) j) ↔
      (run uid evs SessionState.init).code_shown.isSome = true) := by
  obtain ⟨h1, h2⟩ := inv_run uid evs hall SessionState.init inv_init
  refine ⟨?_, ?_, ?_⟩
  · intro a b ha hb
    rw [ha] at hb
    exact Option.some.inj hb
  · rintro j k ⟨t, hjt, hc, hf⟩ ⟨u, hku, hc', hf'⟩
    have hj := (h1 j t hjt hc hf).1
    have hk := (h1 k u hku hc' hf').1
    rw [hj] at hk
    exact Option.some.inj hk
  · constructor
    · rintro ⟨j, t, hjt, hc, hf⟩
      rw [(h1 j t hjt hc hf).2]
      rfl
    · intro hsome
      obtain ⟨id, hid⟩ := Option.isSome_iff_exists.mp hsome
      obtain ⟨j, t, hjt, hc, hf, _⟩ := h2 id hid
      exact ⟨j, t, hjt, hc, hf⟩

/-- Witness for the amended C3 on the one-toggle sequence revealing
object 2. -/
theorem toggle_sequences_one_live_timer_witness :
    (∀ a b : Int, sRevealed.code_shown = some a →
      sRevealed.code_shown = some b → a = b) ∧
    (∀ j k, liveAt sRevealed j → liveAt sRevealed k → j = k) ∧
    ((∃ j, liveAt sRevealed j) ↔ sRevealed.code_shown.isSome = true) :=
  toggle_sequences_one_live_timer "u" [Event.toggle (some M2) "show_2"]
    (by
      intro e he
      rw [List.mem_singleton] at he
      subst he
      exact ⟨some M2, "show_2", M2, rfl, rfl, by decide⟩)

/-! ### Claim C9: toggling twice, and toggling two different objects -/

/-- C9: from a fresh session, toggling the same object id twice in immediate
succession (both fetches returning the same nonempty map) returns the
session to the listing state: nothing revealed, no task reference, and no
live timer at all.  Toggling object `A` and then object `B` cancels `A`'s
task, leaves exactly one live task — the one scheduled for `B` — while `B`
is revealed, and the final render is the keyboard built with only `B`'s
code shown. -/
theorem toggle_twice_and_switch (uid dataA dataB : String)
    (m : List (Int × ObjData)) (A B : Int)
    (hm : m ≠ [])
    (hA : (m.any fun p => p.1 = A) = true)
    (hB : (m.any fun p => p.1 = B) = true)
    (hAB : A ≠ B)
    (hdA : payloadInt? dataA = some A)
    (hdB : payloadInt? dataB = some B) :
    (run uid [Event.toggle (some m) dataA, Event.toggle (some m) dataA]
        SessionState.init).code_shown = none ∧
    (run uid [Event.toggle (some m) dataA, Event.toggle (some m) dataA]
        SessionState.init).hide_task = none ∧
    (∀ j, ¬ liveAt (run uid [Event.toggle (some m) dataA, Event.toggle (some m) dataA]
        SessionState.init) j) ∧
    (run uid [Event.toggle (some m) dataA, Event.toggle (some m) dataB]
        SessionState.init).code_shown = some B ∧
    (run uid [Event.toggle (some m) dataA, Event.toggle (some m) dataB]
        SessionState.init).timers[0]?
      = some { obj := A, sched := 1, cancelled := true, fired := false } ∧
    (run uid [Event.toggle (some m) dataA, Event.toggle (some m) dataB]
        SessionState.init).timers[1]?
      = some { obj := B, sched := 2, cancelled := false, fired := false } ∧
    (∀ j, liveAt (run uid [Event.toggle (some m) dataA, Event.toggle (some m) dataB]
        SessionState.init) j → j = 1) ∧
    (show_code_step uid (some m) dataB
        (run uid [Event.toggle (some m) dataA] SessionState.init)).2
      = Render.markup (build_keyboard m (some B)) := by
  have e1 : show_code_step uid (some m) dataA SessionState.init
      = ({ obj_map := some m, code_shown := some A, hide_task := some 0,
           timers := [{ obj := A, sched := 1, cancelled := false, fired := false }],
           nEvents := 1 },
         Render.markup (build_keyboard m (some A))) := by
    unfold show_code_step
    dsimp only
    rw [if_neg hm, hdA]
    dsimp only
    rw [if_pos hA]
    unfold toggle_core
    rw [if_neg (by simp [SessionState.init])]
    rfl
  have e2 : show_code_step uid (some m) dataA
      ({ obj_map := some m, code_shown := some A, hide_task := some 0,
         timers := [{ obj := A, sched := 1, cancelled := false, fired := false }],
         nEvents := 1 } : SessionState)
      = ({ obj_map := some m, code_shown := none, hide_task := none,
           timers := [{ obj := A, sched := 1, cancelled := true, fired := false }],
           nEvents := 2 },
         Render.markup (build_keyboard m none)) := by
    unfold show_code_step
    dsimp only
    rw [if_neg hm, hdA]
    dsimp only
    rw [if_pos hA]
    unfold toggle_core
    rw [if_pos rfl]
    rfl
  have e3 : show_code_step uid (some m) dataB
      ({ obj_map := some m, code_shown := some A, hide_task := some 0,
         timers := [{ obj := A, sched := 1, cancelled := false, fired := false }],
         nEvents := 1 } : SessionState)
      = ({ obj_map := some m, code_shown := some B, hide_task := some 1,
           timers := [{ obj := A, sched := 1, cancelled := true, fired := false },
                      { obj := B, sched := 2, cancelled := false, fired := false }],
           nEvents := 2 },
         Render.markup (build_keyboard m (some B))) := by
    unfold show_code_step
    dsimp only
    rw [if_neg hm, hdB]
    dsimp only
    rw [if_pos hB]
    unfold toggle_core
    rw [if_neg (fun h => hAB (Option.some.inj h))]
    rfl
  have hrunA : run uid [Event.toggle (some m) dataA] SessionState.init
      = ({ obj_map := some m, code_shown := some A, hide_task := some 0,
           timers := [{ obj := A, sched := 1, cancelled := false, fired := false }],
           nEvents := 1 } : SessionState) := by
    simp only [run, List.foldl_cons, List.foldl_nil, step]
    rw [e1]
  have hrunAA : run uid [Event.toggle (some m) dataA, Event.toggle (some m) dataA]
      SessionState.init
      = ({ obj_map := some m, code_shown := none, hide_task := none,
           timers := [{ obj := A, sched := 1, cancelled := true, fired := false }],
           nEvents := 2 } : SessionState) := by
    simp only [run, List.foldl_cons, List.foldl_nil, step]
    rw [e1]
    dsimp only
    rw [e2]
  have hrunAB : run uid [Event.toggle (some m) dataA, Event.toggle (some m) dataB]
      SessionState.init
      = ({ obj_map := some m, code_shown := some B, hide_task := some 1,
           timers := [{ obj := A, sched := 1, cancelled := true, fired := false },
                      { obj := B, sched := 2, cancelled := false, fired := false }],
           nEvents := 2 } : SessionState) := by
    simp only [run, List.foldl_cons, List.foldl_nil, step]
    rw [e1]
    dsimp only
    rw [e3]
  refine ⟨?_, ?_, ?_, ?_, ?_, ?_, ?_, ?_⟩
  · rw [hrunAA]
  · rw [hrunAA]
  · intro j hl
    rw [hrunAA] at hl
    obtain ⟨t, hget, hc, hf⟩ := hl
    cases j with
    | zero =>
      rw [List.getElem?_cons_zero] at hget
      injection hget with ht
      rw [← ht] at hc
      exact absurd hc (by simp)
    | succ k =>
      rw [List.getElem?_cons_succ] at hget
      cases k with
      | zero => exact absurd hget (by simp)
      | succ l => exact absurd hget (by simp)
  · rw [hrunAB]
  · rw [hrunAB]
    rfl
  · rw [hrunAB]
    rfl
  · intro j hl
    rw [hrunAB] at hl
    obtain ⟨t, hget, hc, hf⟩ := hl
    cases j with
    | zero =>
      rw [List.getElem?_cons_zero] at hget
      injection hget with ht
      rw [← ht] at hc
      exact absurd hc (by simp)
    | succ k =>
      cases k with
      | zero => rfl
      | succ l =>
        rw [List.getElem?_cons_succ, List.getElem?_cons_succ] at hget
        exact absurd hget (by simp)
  · rw [hrunA]
    rw [e3]

/-- Two-object map used in the C9 witness. -/
def M12 : List (Int × ObjData) :=
  [(1, { address := "a1", code := "c1", details := "d1" }),
   (2, { address := "a2", code := "c2", details := "d2" })]

/-- Witness for C9 at the concrete map `M12`, toggling object 1 twice and
then object 1 followed by object 2. -/
theorem toggle_twice_and_switch_witness :
    (run "u" [Event.toggle (some M12) "show_1", Event.toggle (some M12) "show_1"]
        SessionState.init).code_shown = none ∧
    (run "u" [Event.toggle (some M12) "show_1", Event.toggle (some M12) "show_1"]
        SessionState.init).hide_task = none ∧
    (∀ j, ¬ liveAt (run "u" [Event.toggle (some M12) "show_1",
        Event.toggle (some M12) "show_1"] SessionState.init) j) ∧
    (run "u" [Event.toggle (some M12) "show_1", Event.toggle (some M12) "show_2"]
        SessionState.init).code_shown = some 2 ∧
    (run "u" [Event.toggle (some M12) "show_1", Event.toggle (some M12) "show_2"]
        SessionState.init).timers[0]?
      = some { obj := 1, sched := 1, cancelled := true, fired := false } ∧
    (run "u" [Event.toggle (some M12) "show_1", Event.toggle (some M12) "show_2"]
        SessionState.init).timers[1]?
      = some { obj := 2, sched := 2, cancelled := false, fired := false } ∧
    (∀ j, liveAt (run "u" [Event.toggle (some M12) "show_1",
        Event.toggle (some M12) "show_2"] SessionState.init) j → j = 1) ∧
    (show_code_step "u" (some M12) "show_2"
        (run "u" [Event.toggle (some M12) "show_1"] SessionState.init)).2
      = Render.markup (build_keyboard M12 (some 2)) :=
  toggle_twice_and_switch "u" "show_1" "show_2" M12 1 2
    (by decide) (by decide) (by decide) (by decide) (by decide) (by decide)
